import Mathlib

/-!
Verification development for the `tiler` program (Go): an ESRI-grid
parser (`esri/grid.go`) and a height-to-grayscale renderer (`tiler.go`).

Modelling conventions:
* Go `int` is modelled by `ℤ`, Go `float32` by `ℚ` (exact rational
  arithmetic; every numeric value appearing in the claims is exactly
  representable as a `float32`, so the rational model agrees with the
  floating-point computation on them).
* The input file is modelled as the list of its newline-terminated
  lines, each given without its terminating `'\n'` (Go's
  `bufio.Reader.ReadString` hands the line to `stripSpaces`, whose
  `strings.TrimSpace` removes the terminator anyway).
* A Go runtime panic (out-of-range slice index) is modelled by the
  `PRes.crash` outcome, a returned `error` by `PRes.fail`.
* Logging is not modelled: `log.Printf` has no effect on the data flow.
-/

namespace Tiler

/-- Outcome of a Go computation that may return an error (`fail`) or hit a
runtime panic such as an out-of-range slice index (`crash`). -/
inductive PRes (α : Type) where
  | ok : α → PRes α
  | fail : PRes α
  | crash : PRes α
  deriving DecidableEq

/-- The whitespace characters removed by `strings.TrimSpace` (ASCII
fragment, which covers every input in scope). -/
def isSpaceChar (c : Char) : Bool :=
  c = ' ' || c = '\t' || c = '\n' || c = '\r'

/-- `strings.TrimSpace`: drop leading and trailing whitespace. -/
def trimChars (cs : List Char) : List Char :=
  ((cs.dropWhile isSpaceChar).reverse.dropWhile isSpaceChar).reverse

/-- The regexp replacement `re.ReplaceAllLiteralString(s, " ")` for the
pattern `"  +"`: every run of two or more spaces collapses to one space. -/
def collapseRuns : List Char → List Char
  | [] => []
  | [c] => [c]
  | c :: d :: rest =>
    if c = ' ' && d = ' ' then collapseRuns (d :: rest)
    else c :: collapseRuns (d :: rest)

/-- `stripSpaces` from `esri/grid.go`: trim outer whitespace, collapse
internal runs of spaces (the compiled regexp never fails, so the error
return of the Go function is always `nil`). -/
def stripSpaces (cs : List Char) : List Char :=
  collapseRuns (trimChars cs)

/-- `strings.Split(s, " ")`: split around every single space, keeping
empty fields; the result is never the empty list. -/
def splitSp : List Char → List (List Char)
  | [] => [[]]
  | c :: rest =>
    if c = ' ' then [] :: splitSp rest
    else
      match splitSp rest with
      | [] => [[c]]
      | t :: ts => (c :: t) :: ts

def isDigitChar (c : Char) : Bool := '0' ≤ c && c ≤ '9'

/-- Numeric value of a digit string (most significant first). -/
def digitsToNat (cs : List Char) : ℕ :=
  cs.foldl (fun acc c => 10 * acc + (c.toNat - ('0').toNat)) 0

/-- `fmt.Sscanf(tok, "%d", &result)`: an optional sign followed by at
least one decimal digit; trailing non-digits are left unconsumed and do
not cause an error (Go's `Sscanf` does not require the whole string to
be consumed). Returns `none` when no integer can be scanned. -/
def sscanInt (cs : List Char) : Option ℤ :=
  match cs with
  | '-' :: rest =>
    let ds := rest.takeWhile isDigitChar
    if ds.isEmpty then none else some (-(digitsToNat ds : ℤ))
  | '+' :: rest =>
    let ds := rest.takeWhile isDigitChar
    if ds.isEmpty then none else some (digitsToNat ds : ℤ)
  | _ =>
    let ds := cs.takeWhile isDigitChar
    if ds.isEmpty then none else some (digitsToNat ds : ℤ)

/-- Fractional part `.d₁…dₖ` as a rational. -/
def fracVal (fs : List Char) : ℚ :=
  (digitsToNat fs : ℚ) / ((10 : ℚ) ^ fs.length)

/-- `fmt.Sscanf(tok, "%f", &f)` on the decimal fragment used by grid
files: optional sign, at least one integer digit, optional fraction.
(Exponents, `Inf` and `NaN` are accepted by Go but never occur in the
inputs in scope.) -/
def sscanRat (cs : List Char) : Option ℚ :=
  let core : List Char → Option ℚ := fun body =>
    let ds := body.takeWhile isDigitChar
    if ds.isEmpty then none
    else
      match body.drop ds.length with
      | '.' :: r2 => some ((digitsToNat ds : ℚ) + fracVal (r2.takeWhile isDigitChar))
      | _ => some (digitsToNat ds : ℚ)
  match cs with
  | '-' :: rest => (core rest).map (fun q => -q)
  | '+' :: rest => core rest
  | _ => core cs

/-- The `Grid` struct of `esri/grid.go`. -/
structure Grid where
  ncols : ℤ
  nrows : ℤ
  xllcorner : ℚ
  yllcorner : ℚ
  cellsize : ℚ
  noDataValue : ℤ
  maxHeightSet : Bool
  maxHeight : ℚ
  minHeightSet : Bool
  minHeight : ℚ
  height : List (List ℚ)
  deriving DecidableEq

def Grid.Ncols (g : Grid) : ℤ := g.ncols
def Grid.Nrows (g : Grid) : ℤ := g.nrows
def Grid.MaxHeight (g : Grid) : ℚ := g.maxHeight
def Grid.MinHeight (g : Grid) : ℚ := g.minHeight

/-- `func (g Grid) Height(i, col int) float32`: `g.height[i][col]`,
panicking (`none`) when either index is outside the slices. -/
def Grid.Height (g : Grid) (i col : ℤ) : Option ℚ :=
  if 0 ≤ i ∧ i.toNat < g.height.length then
    let r := g.height.getD i.toNat []
    if 0 ≤ col ∧ col.toNat < r.length then some (r.getD col.toNat 0) else none
  else none

/-- The assignment `g.height[row][col] = height`: `none` models the Go
runtime panic when an index is outside the slices. -/
def setCell (hm : List (List ℚ)) (row col : ℤ) (v : ℚ) :
    Option (List (List ℚ)) :=
  if 0 ≤ row ∧ row.toNat < hm.length then
    let r := hm.getD row.toNat []
    if 0 ≤ col ∧ col.toNat < r.length then
      some (hm.set row.toNat (r.set col.toNat v))
    else none
  else none

/-- `func (g *Grid) SetHeight(row, col int, height float32)`: indices with
`row ≥ nrows` or `col ≥ ncols` are rejected (log and return, grid
unchanged); otherwise the cell is written — panicking (`none`) when an
index is negative — and the running max/min statistics are updated. -/
def Grid.SetHeight (g : Grid) (row col : ℤ) (h : ℚ) : Option Grid :=
  if row ≥ g.nrows ∨ col ≥ g.ncols then some g
  else
    match setCell g.height row col h with
    | none => none
    | some hm =>
      let g1 : Grid := { g with height := hm }
      let g2 : Grid :=
        if g1.maxHeightSet then
          if h > g1.maxHeight then { g1 with maxHeight := h } else g1
        else { g1 with maxHeight := h, maxHeightSet := true }
      let g3 : Grid :=
        if g2.minHeightSet then
          if h < g2.minHeight then { g2 with minHeight := h } else g2
        else { g2 with minHeight := h, minHeightSet := true }
      some g3

/-- A sequence of `SetHeight` calls, propagating a panic (`none`). -/
def setMany (g : Grid) : List (ℤ × ℤ × ℚ) → Option Grid
  | [] => some g
  | (r, c, h) :: rest =>
    match g.SetHeight r c h with
    | none => none
    | some g' => setMany g' rest

/-- `readIntFromHeader`: read one line (EOF is a returned error), strip
spaces, split on single spaces; the key token in `field[0]` is only
compared for a log message, then `field[1]` is scanned with `%d` —
accessing `field[1]` panics when the line held a single token. -/
def readIntFromHeader (lines : List String) (fieldName : String) :
    PRes (ℤ × List String) :=
  match lines with
  | [] => .fail
  | line :: rest =>
    let field := splitSp (stripSpaces line.data)
    -- the comparison `field[0] != fieldName` only feeds a log message
    let _keyMismatch := decide (field.getD 0 [] ≠ fieldName.data)
    if field.length ≤ 1 then .crash
    else
      match sscanInt (field.getD 1 []) with
      | none => .fail
      | some v => .ok (v, rest)

/-- `readFloat32FromHeader`: same shape as `readIntFromHeader` with a
`%f` scan. -/
def readFloat32FromHeader (lines : List String) (fieldName : String) :
    PRes (ℚ × List String) :=
  match lines with
  | [] => .fail
  | line :: rest =>
    let field := splitSp (stripSpaces line.data)
    let _keyMismatch := decide (field.getD 0 [] ≠ fieldName.data)
    if field.length ≤ 1 then .crash
    else
      match sscanRat (field.getD 1 []) with
      | none => .fail
      | some v => .ok (v, rest)

/-- The inner loop `for col := range numbers` of `ReadGridFromFile`:
scan each token with `%f` (a conversion failure is fatal, `fail`) and
store it with the bounds-checked setter. -/
def rowScan (g : Grid) (row : ℤ) : List (List Char) → ℤ → PRes Grid
  | [], _ => .ok g
  | tok :: toks, col =>
    match sscanRat tok with
    | none => .fail
    | some f =>
      match g.SetHeight row col f with
      | none => .crash
      | some g' => rowScan g' row toks (col + 1)

/-- The data-row loop of `ReadGridFromFile` (`for row := 0;; row++`):
read a line (EOF breaks the loop), stop with a warning once more than
`linesExpected` lines have been consumed, normalize the line, split it
on single spaces, skip it when the token count is not `ncols` (warning,
`continue` — note `row` still advances), otherwise scan and store the
row. -/
def dataLoop (g : Grid) (lines : List String) (row lineNum linesExpected : ℤ) :
    PRes Grid :=
  match lines with
  | [] => .ok g
  | line :: rest =>
    let lineNum' := lineNum + 1
    if lineNum' > linesExpected then .ok g
    else
      let numbers := splitSp (stripSpaces line.data)
      if (numbers.length : ℤ) > g.ncols then
        dataLoop g rest (row + 1) lineNum' linesExpected
      else if (numbers.length : ℤ) < g.ncols then
        dataLoop g rest (row + 1) lineNum' linesExpected
      else
        match rowScan g row numbers 0 with
        | .fail => .fail
        | .crash => .crash
        | .ok g' => dataLoop g' rest (row + 1) lineNum' linesExpected

/-- `ReadGridFromFile` after a successful `os.Open`, on the file's lines:
six header reads in strict order, allocation of the zero-filled
`nrows × ncols` height matrix (Go's `make` panics on a negative
length), then the data-row loop with `linesExpected = nrows + 6`. -/
def readGridFromLines (lines : List String) : PRes Grid :=
  match readIntFromHeader lines ("ncols") with
  | .fail => .fail
  | .crash => .crash
  | .ok (ncols, l1) =>
    match readIntFromHeader l1 ("nrows") with
    | .fail => .fail
    | .crash => .crash
    | .ok (nrows, l2) =>
      if nrows < 0 then .crash
      else if 0 < nrows ∧ ncols < 0 then .crash
      else
        let hm := List.replicate nrows.toNat (List.replicate ncols.toNat (0 : ℚ))
        match readFloat32FromHeader l2 ("xllcorner") with
        | .fail => .fail
        | .crash => .crash
        | .ok (xll, l3) =>
          match readFloat32FromHeader l3 ("yllcorner") with
          | .fail => .fail
          | .crash => .crash
          | .ok (yll, l4) =>
            match readFloat32FromHeader l4 ("cellsize") with
            | .fail => .fail
            | .crash => .crash
            | .ok (cs, l5) =>
              match readIntFromHeader l5 ("NODATA_value") with
              | .fail => .fail
              | .crash => .crash
              | .ok (nodata, l6) =>
                let g : Grid :=
                  { ncols := ncols, nrows := nrows, xllcorner := xll,
                    yllcorner := yll, cellsize := cs, noDataValue := nodata,
                    maxHeightSet := false, maxHeight := 0,
                    minHeightSet := false, minHeight := 0, height := hm }
                dataLoop g l6 0 6 (nrows + 6)

/-- Truncation of a rational toward zero, the rounding performed by Go's
float-to-integer conversion. -/
def ratTrunc (q : ℚ) : ℤ :=
  if 0 ≤ q.num then ((q.num.natAbs / q.den : ℕ) : ℤ)
  else -((q.num.natAbs / q.den : ℕ) : ℤ)

/-- Go's narrowing conversion `uint8(x)` of a floating value: truncate
toward zero, then keep the low 8 bits (two's-complement wraparound). -/
def goUint8 (q : ℚ) : ℕ :=
  (ratTrunc q % 256).toNat

/-- `func shade(floor, ceiling, height float32) color.Color` from
`tiler.go`, restricted to the gray intensity it returns
(`color.Gray{shade}`); the process-wide `minShade`/`maxShade` trackers
it updates are diagnostic only and are not modelled. The code computes
`uint8(255 - uint8(height*256.0/ceiling))` after translating `height`
and `ceiling` to floor-relative values; the outer conversion is the
final `% 256`. -/
def shade (floor ceiling height : ℚ) : ℕ :=
  let height2 := height - floor
  let ceiling2 := ceiling - floor
  (255 - goUint8 (height2 * 256 / ceiling2)) % 256

/-- The shade formula as the specification words it:
`intensity = 255 - floor8(height' * 256 / ceiling')` where `floor8`
truncates to an 8-bit unsigned value with wraparound on overflow
(for the nonnegative quotients of in-range heights this is the
mathematical floor) and no clamping is applied. -/
def shadeSpecFormula (floor ceiling height : ℚ) : ℕ :=
  255 - goUint8 ((height - floor) * 256 / (ceiling - floor))

/-- The Go `image.RGBA` as used by `tiler.go`: `image.Rect(0, 0, w, h)`
with `Min = (0,0)`, so width `w` and height `h`; `px x y = none` means
the pixel was never set. -/
structure GoImage where
  w : ℤ
  h : ℤ
  px : ℤ → ℤ → Option ℕ

/-- `img.Set(x, y, c)`: a write outside the image rectangle is silently
ignored (Go's `RGBA.Set` returns without storing). -/
def GoImage.set (img : GoImage) (x y : ℤ) (c : ℕ) : GoImage :=
  if 0 ≤ x ∧ x < img.w ∧ 0 ≤ y ∧ y < img.h then
    { img with px := fun a b => if a = x ∧ b = y then some c else img.px a b }
  else img

/-- The height lookup `grid.Height(row, col)` as performed by the render
loop; the loop only presents indices inside the parsed matrix, where
this total variant agrees with `Grid.Height`. -/
def Grid.heightD (g : Grid) (row col : ℕ) : ℚ :=
  (g.height.getD row []).getD col 0

/-- One column pass of the render loop at a fixed `row`:
`img.Set(col, row, shade(floor, ceiling, grid.Height(row, col)))` for
each `col` in the list. -/
def setCols (g : Grid) (f c : ℚ) (row : ℤ) (cols : List ℕ) (img : GoImage) :
    GoImage :=
  cols.foldl
    (fun im (col : ℕ) =>
      im.set (col : ℤ) row (shade f c (g.heightD row.toNat col))) img

/-- The row passes of the render loop, one `setCols` per row index. -/
def setRows (g : Grid) (f c : ℚ) (rows : List ℕ) (img : GoImage) : GoImage :=
  rows.foldl
    (fun im (row : ℕ) =>
      setCols g f c (row : ℤ) (List.range g.ncols.toNat) im) img

/-- The rendering in `main` of `tiler.go`:
`img := image.NewRGBA(image.Rect(0, 0, grid.Nrows(), grid.Ncols()))`
(note the argument order: the image is `nrows` wide and `ncols` high),
then rows are visited from `maxRow` down to `0` and columns from `0`
to `ncols-1`, with `img.Set(col, row, shade(floor, ceiling,
grid.Height(row, col)))`. -/
def renderImage (g : Grid) (f c : ℚ) : GoImage :=
  setRows g f c (List.range g.nrows.toNat).reverse
    { w := g.nrows, h := g.ncols, px := fun _ _ => none }

/-- The driver run of `main` after a successful parse when no explicit
floor/ceiling flags were given: `floor = grid.MinHeight() - 0.1`,
`ceiling = grid.MaxHeight() + 0.1`, then render. -/
def mainRender (g : Grid) : GoImage :=
  renderImage g (g.MinHeight - 1/10) (g.MaxHeight + 1/10)

/-- State of the output path after a run: no file, an empty
created-but-never-written file, or a file holding the encoded image. -/
inductive OutFile where
  | absent : OutFile
  | empty : OutFile
  | image : GoImage → OutFile

/-- The effect of one `main` run of `tiler.go` on the output path.
`os.Create(output)` runs FIRST and truncates the path to an empty file;
only then is the input parsed; `png.Encode` writes the rendered image
last. `createOk = false` models `os.Create` failing (the run returns
with the path untouched). -/
def mainRun (createOk : Bool) (parseRes : PRes Grid) (prev : OutFile) :
    OutFile :=
  if createOk then
    match parseRes with
    | .fail => OutFile.empty
    | .crash => OutFile.empty
    | .ok g => OutFile.image (mainRender g)
  else prev

/-- Whether any image content was written to the output path. -/
def OutFile.hasImage : OutFile → Bool
  | .image _ => true
  | _ => false

/-- A zero grid used as the fallback of the `match` selectors below and
as a small concrete instance (2 × 2, all heights zero, statistics
unset) for witnesses and counterexamples. -/
def zeroGrid2 : Grid :=
  { ncols := 2, nrows := 2, xllcorner := 0, yllcorner := 0, cellsize := 1,
    noDataValue := -9999, maxHeightSet := false, maxHeight := 0,
    minHeightSet := false, minHeight := 0, height := [[0, 0], [0, 0]] }

/-- The 4×4 example file from the spec and from the doc comment of
`esri/grid.go`. -/
def exampleLines : List String :=
  ["ncols 4", "nrows 4", "xllcorner    513000", "yllcorner    152000",
   "cellsize     1", "NODATA_value -9999",
   "500 500 500 500", "500 500 500 500",
   "1000 1000 1000 1000", "1000 1000 1000 1000"]

/-- The grid parsed from `exampleLines`. -/
def exGrid : Grid :=
  match readGridFromLines exampleLines with
  | .ok g => g
  | _ => zeroGrid2

/-- A well-formed non-square file: 1 row of 2 columns. -/
def wideLines : List String :=
  ["ncols 2", "nrows 1", "xllcorner 0", "yllcorner 0",
   "cellsize 1", "NODATA_value -9999", "5 7"]

/-- The grid parsed from `wideLines`. -/
def wideGrid : Grid :=
  match readGridFromLines wideLines with
  | .ok g => g
  | _ => zeroGrid2

/-- A well-formed square file: 2 rows of 2 columns, the first (northern)
row at height 5 and the second (southern) row at height 9. -/
def squareLines : List String :=
  ["ncols 2", "nrows 2", "xllcorner 0", "yllcorner 0",
   "cellsize 1", "NODATA_value -9999", "5 5", "9 9"]

/-- The grid parsed from `squareLines`. -/
def squareGrid : Grid :=
  match readGridFromLines squareLines with
  | .ok g => g
  | _ => zeroGrid2

/-- `zeroGrid2` after the single call `SetHeight(0, 0, 5)`. -/
def zeroGrid2After : Grid :=
  { zeroGrid2 with
    height := [[5, 0], [0, 0]]
    maxHeightSet := true
    maxHeight := 5
    minHeightSet := true
    minHeight := 5 }

theorem GoImage.set_w (img : GoImage) (x y : ℤ) (c : ℕ) :
    (img.set x y c).w = img.w := by
  unfold GoImage.set; split <;> rfl

theorem GoImage.set_h (img : GoImage) (x y : ℤ) (c : ℕ) :
    (img.set x y c).h = img.h := by
  unfold GoImage.set; split <;> rfl

theorem GoImage.set_px (img : GoImage) (x y : ℤ) (c : ℕ) (a b : ℤ) :
    (img.set x y c).px a b =
      if (0 ≤ x ∧ x < img.w ∧ 0 ≤ y ∧ y < img.h) ∧ a = x ∧ b = y then some c
      else img.px a b := by
  unfold GoImage.set
  by_cases hin : 0 ≤ x ∧ x < img.w ∧ 0 ≤ y ∧ y < img.h
  · rw [if_pos hin]
    by_cases hab : a = x ∧ b = y
    · rw [if_pos ⟨hin, hab⟩]; exact if_pos hab
    · rw [if_neg (by tauto)]; exact if_neg hab
  · rw [if_neg hin, if_neg (by tauto)]

theorem setCols_w (g : Grid) (f c : ℚ) (row : ℤ) (cols : List ℕ)
    (img : GoImage) : (setCols g f c row cols img).w = img.w := by
  induction cols generalizing img with
  | nil => rfl
  | cons c0 rest ih =>
    simp only [setCols, List.foldl_cons] at *
    rw [ih, GoImage.set_w]

theorem setCols_h (g : Grid) (f c : ℚ) (row : ℤ) (cols : List ℕ)
    (img : GoImage) : (setCols g f c row cols img).h = img.h := by
  induction cols generalizing img with
  | nil => rfl
  | cons c0 rest ih =>
    simp only [setCols, List.foldl_cons] at *
    rw [ih, GoImage.set_h]

theorem setCols_px (g : Grid) (f c : ℚ) (row : ℤ) (cols : List ℕ)
    (img : GoImage) (a b : ℤ) :
    (setCols g f c row cols img).px a b =
      if 0 ≤ a ∧ a.toNat ∈ cols ∧ b = row ∧ a < img.w ∧ 0 ≤ row ∧ row < img.h
      then some (shade f c (g.heightD row.toNat a.toNat))
      else img.px a b := by
  induction cols generalizing img with
  | nil => simp [setCols]
  | cons c0 rest ih =>
    simp only [setCols, List.foldl_cons] at *
    rw [ih, GoImage.set_w, GoImage.set_h, GoImage.set_px]
    by_cases hrest : 0 ≤ a ∧ a.toNat ∈ rest ∧ b = row ∧ a < img.w ∧
        0 ≤ row ∧ row < img.h
    · obtain ⟨h1, h2, h3, h4, h5, h6⟩ := hrest
      rw [if_pos ⟨h1, h2, h3, h4, h5, h6⟩,
        if_pos ⟨h1, List.mem_cons_of_mem c0 h2, h3, h4, h5, h6⟩]
    · rw [if_neg hrest]
      by_cases hhd : (0 ≤ (c0 : ℤ) ∧ (c0 : ℤ) < img.w ∧ 0 ≤ row ∧ row < img.h) ∧
          a = (c0 : ℤ) ∧ b = row
      · obtain ⟨⟨h1, h2, h3, h4⟩, h5, h6⟩ := hhd
        rw [if_pos ⟨⟨h1, h2, h3, h4⟩, h5, h6⟩, if_pos]
        · have ha : a.toNat = c0 := by omega
          rw [ha]
        · exact ⟨by omega, List.mem_cons.mpr (Or.inl (by omega)), h6,
            by omega, h3, h4⟩
      · rw [if_neg hhd, if_neg]
        intro hall
        obtain ⟨ha0, hmem, hb, haw, hr0, hrh⟩ := hall
        rcases List.mem_cons.mp hmem with hc0 | hr
        · exact hhd ⟨⟨by omega, by omega, hr0, hrh⟩, by omega, hb⟩
        · exact hrest ⟨ha0, hr, hb, haw, hr0, hrh⟩

theorem setRows_w (g : Grid) (f c : ℚ) (rows : List ℕ) (img : GoImage) :
    (setRows g f c rows img).w = img.w := by
  induction rows generalizing img with
  | nil => rfl
  | cons r0 rest ih =>
    simp only [setRows, List.foldl_cons] at *
    rw [ih, setCols_w]

theorem setRows_h (g : Grid) (f c : ℚ) (rows : List ℕ) (img : GoImage) :
    (setRows g f c rows img).h = img.h := by
  induction rows generalizing img with
  | nil => rfl
  | cons r0 rest ih =>
    simp only [setRows, List.foldl_cons] at *
    rw [ih, setCols_h]

theorem setRows_px (g : Grid) (f c : ℚ) (rows : List ℕ) (img : GoImage)
    (a b : ℤ) :
    (setRows g f c rows img).px a b =
      if 0 ≤ b ∧ b.toNat ∈ rows ∧ 0 ≤ a ∧ a.toNat ∈ List.range g.ncols.toNat ∧
          a < img.w ∧ b < img.h
      then some (shade f c (g.heightD b.toNat a.toNat))
      else img.px a b := by
  induction rows generalizing img with
  | nil => simp [setRows]
  | cons r0 rest ih =>
    simp only [setRows, List.foldl_cons] at *
    rw [ih, setCols_w, setCols_h, setCols_px]
    by_cases hrest : 0 ≤ b ∧ b.toNat ∈ rest ∧ 0 ≤ a ∧
        a.toNat ∈ List.range g.ncols.toNat ∧ a < img.w ∧ b < img.h
    · obtain ⟨h1, h2, h3, h4, h5, h6⟩ := hrest
      rw [if_pos ⟨h1, h2, h3, h4, h5, h6⟩,
        if_pos ⟨h1, List.mem_cons_of_mem r0 h2, h3, h4, h5, h6⟩]
    · rw [if_neg hrest]
      by_cases hhd : 0 ≤ a ∧ a.toNat ∈ List.range g.ncols.toNat ∧
          b = (r0 : ℤ) ∧ a < img.w ∧ 0 ≤ (r0 : ℤ) ∧ (r0 : ℤ) < img.h
      · obtain ⟨h1, h2, h3, h4, h5, h6⟩ := hhd
        rw [if_pos ⟨h1, h2, h3, h4, h5, h6⟩, if_pos]
        · have hb : b.toNat = r0 := by omega
          rw [hb, Int.toNat_natCast]
        · exact ⟨by omega, List.mem_cons.mpr (Or.inl (by omega)), h1, h2, h4,
            by omega⟩
      · rw [if_neg hhd, if_neg]
        intro hall
        obtain ⟨hb0, hmem, ha0, hacol, haw, hbh⟩ := hall
        rcases List.mem_cons.mp hmem with hr0 | hr
        · exact hhd ⟨ha0, hacol, by omega, haw, by omega, by omega⟩
        · exact hrest ⟨hb0, hr, ha0, hacol, haw, hbh⟩

theorem renderImage_w (g : Grid) (f c : ℚ) : (renderImage g f c).w = g.nrows := by
  unfold renderImage; rw [setRows_w]

theorem renderImage_h (g : Grid) (f c : ℚ) : (renderImage g f c).h = g.ncols := by
  unfold renderImage; rw [setRows_h]

theorem renderImage_px (g : Grid) (f c : ℚ) (a b : ℤ) :
    (renderImage g f c).px a b =
      if 0 ≤ b ∧ b.toNat < g.nrows.toNat ∧ 0 ≤ a ∧ a.toNat < g.ncols.toNat ∧
          a < g.nrows ∧ b < g.ncols
      then some (shade f c (g.heightD b.toNat a.toNat))
      else none := by
  unfold renderImage
  rw [setRows_px]
  simp only [List.mem_reverse, List.mem_range]

theorem goUint8_lt (q : ℚ) : goUint8 q < 256 := by
  unfold goUint8
  have h1 : (0 : ℤ) ≤ ratTrunc q % 256 :=
    Int.emod_nonneg (ratTrunc q) (by norm_num)
  have h2 : ratTrunc q % 256 < 256 :=
    Int.emod_lt_of_pos (ratTrunc q) (by norm_num)
  omega

theorem shade_sq_north : shade (49/10) (91/10) 5 = 249 := by
  show (255 - goUint8 (((5:ℚ) - 49/10) * 256 / (91/10 - 49/10))) % 256 = 249
  rw [show ((5:ℚ) - 49/10) * 256 / (91/10 - 49/10) = Rat.divInt 128 21 from by
    rw [Rat.divInt_eq_div]; norm_num]
  decide

theorem shade_sq_south : shade (49/10) (91/10) 9 = 6 := by
  show (255 - goUint8 (((9:ℚ) - 49/10) * 256 / (91/10 - 49/10))) % 256 = 6
  rw [show ((9:ℚ) - 49/10) * 256 / (91/10 - 49/10) = Rat.divInt 5248 21 from by
    rw [Rat.divInt_eq_div]; norm_num]
  decide

/-- One `SetHeight` call that does not panic preserves the statistics
invariant: whenever `maxHeightSet` holds, `minHeightSet` holds and
`minHeight ≤ maxHeight`. -/
theorem setHeight_minmax_step (g g' : Grid) (row col : ℤ) (h : ℚ)
    (hinv : g.maxHeightSet = true →
      g.minHeightSet = true ∧ g.minHeight ≤ g.maxHeight)
    (hset : g.SetHeight row col h = some g') :
    g'.maxHeightSet = true →
      g'.minHeightSet = true ∧ g'.minHeight ≤ g'.maxHeight := by
  unfold Grid.SetHeight at hset
  by_cases hrej : row ≥ g.nrows ∨ col ≥ g.ncols
  · rw [if_pos hrej] at hset
    simp only [Option.some.injEq] at hset
    subst hset
    exact hinv
  · rw [if_neg hrej] at hset
    cases hsc : setCell g.height row col h with
    | none => rw [hsc] at hset; cases hset
    | some hm =>
      rw [hsc] at hset
      simp only [Option.some.injEq] at hset
      subst hset
      by_cases hmaxset : g.maxHeightSet
      · rcases hinv hmaxset with ⟨hminset, hle⟩
        by_cases hgt : h > g.maxHeight
        · by_cases hlt : h < g.minHeight
          · simp [hmaxset, hgt, hminset, hlt]
          · simp [hmaxset, hgt, hminset, hlt]
            linarith
        · by_cases hlt : h < g.minHeight
          · simp [hmaxset, hgt, hminset, hlt]
            linarith
          · simp [hmaxset, hgt, hminset, hlt]
            exact hle
      · by_cases hminset : g.minHeightSet
        · by_cases hlt : h < g.minHeight
          · simp [hmaxset, hminset, hlt]
          · simp [hmaxset, hminset, hlt]
            linarith
        · simp [hmaxset, hminset]

/-- The statistics invariant is preserved along any sequence of
non-panicking `SetHeight` calls. -/
theorem setMany_inv (calls : List (ℤ × ℤ × ℚ)) (g g' : Grid)
    (hinv : g.maxHeightSet = true →
      g.minHeightSet = true ∧ g.minHeight ≤ g.maxHeight)
    (hrun : setMany g calls = some g') :
    g'.maxHeightSet = true →
      g'.minHeightSet = true ∧ g'.minHeight ≤ g'.maxHeight := by
  induction calls generalizing g with
  | nil =>
    simp only [setMany, Option.some.injEq] at hrun
    subst hrun
    exact hinv
  | cons call rest ih =>
    obtain ⟨r, c, h⟩ := call
    simp only [setMany] at hrun
    cases hs : g.SetHeight r c h with
    | none => rw [hs] at hrun; cases hrun
    | some g1 =>
      rw [hs] at hrun
      exact ih g1 (setHeight_minmax_step g g1 r c h hinv hs) hrun

/-- C1 (counterexample): at `floor = 0 < 1 = ceiling`, `shade(0, 1, 1)`
— the value exactly at the ceiling — is 255, not an intensity that
rounds to 0: the quotient is exactly 256, which the 8-bit narrowing
conversion wraps to 0, so the intensity is `255 - 0 = 255`. -/
theorem shade_at_ceiling_not_black :
    (0 : ℚ) < 1 ∧ shade 0 1 1 = 255 ∧ shade 0 1 1 ≠ 0 := by
  have h1 : shade 0 1 1 = 255 := by
    show (255 - goUint8 (((1:ℚ) - 0) * 256 / ((1:ℚ) - 0))) % 256 = 255
    rw [show ((1:ℚ) - 0) * 256 / ((1:ℚ) - 0) = (256:ℚ) from by norm_num]
    decide
  exact ⟨by norm_num, h1, by rw [h1]; decide⟩

/-- C1 (amended): for every `floor < ceiling`, `shade(floor, ceiling,
floor) = 255`, and `shade(floor, ceiling, ceiling) = 255` as well —
the floor-relative quotient at the ceiling is exactly 256, which wraps
to 0 under the 8-bit truncation, so the returned intensity is 255
(white), not 0 (black). -/
theorem shade_at_floor_and_ceiling (f c : ℚ) (hfc : f < c) :
    shade f c f = 255 ∧ shade f c c = 255 := by
  have hne : c - f ≠ 0 := sub_ne_zero.mpr (ne_of_gt hfc)
  constructor
  · show (255 - goUint8 ((f - f) * 256 / (c - f))) % 256 = 255
    rw [show (f - f) * 256 / (c - f) = 0 from by rw [sub_self, zero_mul, zero_div]]
    decide
  · show (255 - goUint8 ((c - f) * 256 / (c - f))) % 256 = 255
    rw [mul_div_cancel_left₀ 256 hne]
    decide

/-- Witness for `shade_at_floor_and_ceiling` at `floor = 0`,
`ceiling = 2`. -/
theorem shade_at_floor_and_ceiling_witness :
    (0 : ℚ) < 2 ∧ (shade 0 2 0 = 255 ∧ shade 0 2 2 = 255) :=
  ⟨by norm_num, shade_at_floor_and_ceiling 0 2 (by norm_num)⟩

/-- C2 (code bug): on the well-formed 1-row × 2-column file `wideLines`,
`main` builds the image from `image.Rect(0, 0, grid.Nrows(),
grid.Ncols())`, so the image is `nrows = 1` wide and `ncols = 2` high —
the claimed dimensions (width `ncols`, height `nrows`) are swapped —
and the pixel for grid cell `(0, 1)` (at image x = 1 ≥ width 1) is
silently dropped, contradicting one-pixel-per-cell. -/
theorem image_dimensions_swapped :
    readGridFromLines wideLines = PRes.ok wideGrid ∧
    wideGrid.Ncols = 2 ∧ wideGrid.Nrows = 1 ∧
    (mainRender wideGrid).w = 1 ∧ (mainRender wideGrid).h = 2 ∧
    (mainRender wideGrid).px 1 0 = none := by
  refine ⟨by decide, by decide, by decide, ?_, ?_, ?_⟩
  · simp only [mainRender]
    rw [renderImage_w]
    decide
  · simp only [mainRender]
    rw [renderImage_h]
    decide
  · simp only [mainRender]
    rw [renderImage_px]
    split_ifs with hc
    · exact absurd hc (by decide)
    · rfl

/-- C3 (counterexample): `os.Create(output)` runs before the input is
parsed, so a run whose parse fails still creates/truncates the output
path: starting from no output file an empty file exists afterwards, and
a pre-existing output file's content is destroyed. -/
theorem failed_parse_truncates_output :
    mainRun true PRes.fail OutFile.absent = OutFile.empty ∧
    OutFile.empty ≠ OutFile.absent ∧
    mainRun true PRes.fail (OutFile.image (GoImage.mk 1 1 fun _ _ => none)) =
      OutFile.empty ∧
    OutFile.empty ≠ OutFile.image (GoImage.mk 1 1 fun _ _ => none) := by
  refine ⟨rfl, ?_, rfl, ?_⟩
  · intro h
    exact OutFile.noConfusion h
  · intro h
    exact OutFile.noConfusion h

/-- C3 (amended): when opening the input file fails or parsing fails,
the run writes no image content — `png.Encode` is never reached — but
the output file has already been created and truncated, so an empty
output file exists after the run, whatever was at the path before. -/
theorem failed_parse_leaves_empty_output (prev : OutFile) :
    mainRun true PRes.fail prev = OutFile.empty ∧
    (mainRun true PRes.fail prev).hasImage = false :=
  ⟨rfl, rfl⟩

/-- C4 (counterexample): `SetHeight` only guards `row >= nrows || col >=
ncols`; the negative index in `SetHeight(-1, 0, 5)` passes the guard
and the slice write `g.height[-1][0]` panics instead of being rejected
with the grid left unchanged. -/
theorem setHeight_negative_index_crashes :
    zeroGrid2.SetHeight (-1) 0 5 = none ∧
    (none : Option Grid) ≠ some zeroGrid2 := by
  exact ⟨by decide, by decide⟩

/-- C4 (amended): writes with `row ≥ nrows` or `col ≥ ncols` are
rejected — logged and ignored — leaving the height matrix and the
min/max statistics unchanged; but indices below the range (negative
`row` or `col` with the other index in range) are not guarded and cause
a runtime panic rather than a rejection. -/
theorem setHeight_beyond_range_rejected (g : Grid) (row col : ℤ) (h : ℚ)
    (hor : row ≥ g.nrows ∨ col ≥ g.ncols) :
    g.SetHeight row col h = some g := by
  unfold Grid.SetHeight
  rw [if_pos hor]

/-- Witness for `setHeight_beyond_range_rejected`: `SetHeight(3, 0, 5)`
on the 2×2 zero grid is a no-op. -/
theorem setHeight_beyond_range_rejected_witness :
    (3 : ℤ) ≥ zeroGrid2.nrows ∧ zeroGrid2.SetHeight 3 0 5 = some zeroGrid2 :=
  ⟨by decide, setHeight_beyond_range_rejected zeroGrid2 3 0 5 (Or.inl (by decide))⟩

/-- C5 (counterexample): on the square file `squareLines` (northern row
at height 5, southern row at height 9, derived floor `4.9` and ceiling
`9.1`), the shade of the southern cell `(1,0)` is 6, and the claim
places it at image coordinate `(0, nrows-1-1) = (0,0)`; but the code
writes `img.Set(col, row, …)` with no inversion, so pixel `(0,0)` holds
249, the shade of the northern cell `(0,0)`. -/
theorem southern_row_rendered_at_bottom :
    readGridFromLines squareLines = PRes.ok squareGrid ∧
    squareGrid.Nrows = 2 ∧
    shade (squareGrid.MinHeight - 1/10) (squareGrid.MaxHeight + 1/10)
      (squareGrid.heightD 1 0) = 6 ∧
    (mainRender squareGrid).px 0 0 = some 249 ∧
    some (249 : ℕ) ≠ some (6 : ℕ) := by
  have hmin : squareGrid.MinHeight = 5 := by decide
  have hmax : squareGrid.MaxHeight = 9 := by decide
  have hf : squareGrid.MinHeight - 1/10 = 49/10 := by rw [hmin]; norm_num
  have hc : squareGrid.MaxHeight + 1/10 = 91/10 := by rw [hmax]; norm_num
  refine ⟨by decide, by decide, ?_, ?_, by decide⟩
  · rw [hf, hc, show squareGrid.heightD 1 0 = 9 from by decide]
    exact shade_sq_south
  · simp only [mainRender]
    rw [renderImage_px]
    split_ifs with hcond
    · show some (shade (squareGrid.MinHeight - 1/10)
        (squareGrid.MaxHeight + 1/10) (squareGrid.heightD 0 0)) = some 249
      rw [hf, hc, show squareGrid.heightD 0 0 = 5 from by decide]
      rw [shade_sq_north]
    · exact absurd (by decide) hcond

/-- C5 (amended): the renderer visits rows from the last index down to
the first and columns left to right, but writes the shade of grid cell
`(row, col)` at image coordinate `(col, row)` with no inversion —
whenever that coordinate lies inside the (swapped, see C2) image
bounds — so the first (northern) grid row appears at the top of the
image and the southern row at the bottom. -/
theorem render_writes_at_uninverted_row (g : Grid) (f c : ℚ)
    (row col : ℕ) (hrow : row < g.nrows.toNat) (hcol : col < g.ncols.toNat)
    (hw : (col : ℤ) < g.nrows) (hh : (row : ℤ) < g.ncols) :
    (renderImage g f c).px (col : ℤ) (row : ℤ) =
      some (shade f c (g.heightD row col)) := by
  rw [renderImage_px]
  rw [if_pos ⟨by omega, by omega, by omega, by omega, hw, hh⟩]
  rw [Int.toNat_natCast, Int.toNat_natCast]

/-- Witness for `render_writes_at_uninverted_row`: on `squareGrid`,
cell `(1, 0)` is rendered at image coordinate `(0, 1)`. -/
theorem render_writes_at_uninverted_row_witness :
    (1 < squareGrid.nrows.toNat ∧ 0 < squareGrid.ncols.toNat ∧
      ((0 : ℕ) : ℤ) < squareGrid.nrows ∧ ((1 : ℕ) : ℤ) < squareGrid.ncols) ∧
    (renderImage squareGrid 0 1).px 0 1 =
      some (shade 0 1 (squareGrid.heightD 1 0)) :=
  ⟨by decide,
    render_writes_at_uninverted_row squareGrid 0 1 1 0
      (by decide) (by decide) (by decide) (by decide)⟩

/-- C6: for `ceiling > floor`, the returned intensity is
`255 - floor8((height - floor) * 256 / (ceiling - floor))` where
`floor8` truncates toward zero and reduces modulo 256 (wraparound, no
clamping), and in particular `shade(0, 1000, 500) = 127`. -/
theorem shade_formula (f c h : ℚ) (hfc : f < c) :
    shade f c h = shadeSpecFormula f c h ∧ shade 0 1000 500 = 127 := by
  constructor
  · show (255 - goUint8 ((h - f) * 256 / (c - f))) % 256 =
      255 - goUint8 ((h - f) * 256 / (c - f))
    have := goUint8_lt ((h - f) * 256 / (c - f))
    exact Nat.mod_eq_of_lt (by omega)
  · show (255 - goUint8 (((500:ℚ) - 0) * 256 / ((1000:ℚ) - 0))) % 256 = 127
    rw [show ((500:ℚ) - 0) * 256 / ((1000:ℚ) - 0) = (128:ℚ) from by norm_num]
    decide

/-- Witness for `shade_formula` at `floor = 0`, `ceiling = 1000`,
`height = 500`. -/
theorem shade_formula_witness :
    (0 : ℚ) < 1000 ∧
    (shade 0 1000 500 = shadeSpecFormula 0 1000 500 ∧ shade 0 1000 500 = 127) :=
  ⟨by norm_num, shade_formula 0 1000 500 (by norm_num)⟩

/-- C7: a data row whose token count (after trimming and collapsing
spaces) differs from `ncols` is skipped entirely: the grid is passed on
unchanged (so that grid row keeps its zero-initialized defaults), only
the row and line counters advance, and the loop continues with the
subsequent lines instead of aborting. -/
theorem malformed_row_skipped (g : Grid) (line : String)
    (rest : List String) (row lineNum lexp : ℤ)
    (hln : lineNum + 1 ≤ lexp)
    (hcount : ((splitSp (stripSpaces line.data)).length : ℤ) ≠ g.ncols) :
    dataLoop g (line :: rest) row lineNum lexp =
      dataLoop g rest (row + 1) (lineNum + 1) lexp := by
  simp only [dataLoop]
  rw [if_neg (by omega : ¬ lineNum + 1 > lexp)]
  rcases lt_or_gt_of_ne hcount with hlt | hgt
  · rw [if_neg (by omega), if_pos (by omega)]
  · rw [if_pos (by omega)]

/-- Witness for `malformed_row_skipped`: a 3-token row against
`ncols = 2` (the parsed `wideGrid`). -/
theorem malformed_row_skipped_witness :
    ((0 : ℤ) + 1 ≤ 7 ∧
      ((splitSp (stripSpaces ("1 2 3").data)).length : ℤ) ≠ wideGrid.ncols) ∧
    dataLoop wideGrid ["1 2 3"] 0 0 7 = dataLoop wideGrid [] 1 1 7 :=
  ⟨by decide, malformed_row_skipped wideGrid ("1 2 3") [] 0 0 7
    (by decide) (by decide)⟩

/-- C8: parsing the 4×4 example file succeeds and the resulting grid
reports `MinHeight = 500`, `MaxHeight = 1000`, `Height(0,0) = 500` and
`Height(3,3) = 1000`. -/
theorem example_grid_parsed :
    readGridFromLines exampleLines = PRes.ok exGrid ∧
    exGrid.MinHeight = 500 ∧ exGrid.MaxHeight = 1000 ∧
    exGrid.Height 0 0 = some 500 ∧ exGrid.Height 3 3 = some 1000 := by
  decide

/-- C9: starting from a grid with no statistics set (as allocated by the
parser), after any sequence of non-panicking `SetHeight` calls that
leaves `maxHeightSet` true (at least one valid sample was accepted),
`MaxHeight() ≥ MinHeight()` holds — the invariant is established by the
first accepted sample and preserved by every later call. -/
theorem min_le_max_after_sets (g0 : Grid) (h0 : g0.maxHeightSet = false)
    (calls : List (ℤ × ℤ × ℚ)) (g' : Grid)
    (hrun : setMany g0 calls = some g') (hset : g'.maxHeightSet = true) :
    g'.MinHeight ≤ g'.MaxHeight := by
  have hinv : g0.maxHeightSet = true →
      g0.minHeightSet = true ∧ g0.minHeight ≤ g0.maxHeight := by
    intro hcontra
    rw [h0] at hcontra
    cases hcontra
  exact (setMany_inv calls g0 g' hinv hrun hset).2

/-- Witness for `min_le_max_after_sets`: one accepted call on the 2×2
zero grid. -/
theorem min_le_max_after_sets_witness :
    (zeroGrid2.maxHeightSet = false ∧
      setMany zeroGrid2 [(0, 0, 5)] = some zeroGrid2After ∧
      zeroGrid2After.maxHeightSet = true) ∧
    zeroGrid2After.MinHeight ≤ zeroGrid2After.MaxHeight :=
  ⟨by decide,
    min_le_max_after_sets zeroGrid2 (by decide) [(0, 0, 5)] zeroGrid2After
      (by decide) (by decide)⟩

/-- C10: a header line holding a key token but no value token — the
file whose first line is just `ncols` — makes the parser access
`field[1]` out of range: both `readIntFromHeader` and the whole
`ReadGridFromFile` panic instead of returning a parse error, so parsing
is not total over all text inputs. -/
theorem header_without_value_crashes :
    readIntFromHeader ["ncols"] "ncols" = PRes.crash ∧
    readGridFromLines ["ncols"] = PRes.crash := by
  decide

end Tiler
